import Mathlib

/-!
# Verification of the entities-service registry core

Shallow embedding, in Lean 4, of the core logic of the `ds-entities-service`
repository: the identity codec (`URI_REGEX`, `get_uri`), the schema-variant
resolver (`soft_entity` over the SOFT7/SOFT5 pydantic models), the version-bump
helper (`get_updated_version`), the MongoDB backend operations
(`initialize`, `create`, `update`, `delete` and the duplicate-key
classification of write failures), the abstract backend's containment check
(`Backend.__contains__`), and the CLI upload driver's batching behaviour.

Strings from the source are modelled as `String` / `List Char`; machine-level
concerns (Unicode digit classes beyond ASCII, pydantic URL normalisation) are
noted where the model abstracts them.
-/

/-! ## Identity codec

`src/entities_service/models/soft5.py` (and identically `soft7.py`) defines

  URI_REGEX = `^(?P<namespace>https?://.+)/(?P<version>\d(?:\.\d+){0,2})/(?P<name>[^/#?]+)$`

and `src/entities_service/models/__init__.py::get_uri` builds the canonical
string `f"{namespace}/{version}/{name}"`.  We model the regular expression by
its (unique) decomposition of the subject string: because neither the version
nor the name group can contain `'/'`, a matching string decomposes uniquely at
its last two slashes, which is what `parseURI` computes.
-/

/-- Split a character list at the first occurrence of `c`:
`some (a, b)` with `s = a ++ c :: b` and `c ∉ a`, or `none` if `c` is absent. -/
def splitAtFirst (c : Char) : List Char → Option (List Char × List Char)
  | [] => none
  | x :: xs =>
    if x = c then some ([], xs)
    else (splitAtFirst c xs).map (fun p => (x :: p.1, p.2))

/-- Split a character list at the last occurrence of `c`:
`some (a, b)` with `s = a ++ c :: b` and `c ∉ b`, or `none` if `c` is absent. -/
def splitAtLast (c : Char) (s : List Char) : Option (List Char × List Char) :=
  match splitAtFirst c s.reverse with
  | none => none
  | some p => some (p.2.reverse, p.1.reverse)

/-- Split on every occurrence of `c` (mirrors Python `str.split`). -/
def splitOnC (c : Char) : List Char → List (List Char)
  | [] => [[]]
  | x :: xs =>
    if x = c then [] :: splitOnC c xs
    else
      match splitOnC c xs with
      | [] => [[x]]
      | h :: t => (x :: h) :: t

/-- The `version` group of `URI_REGEX`: `\d(?:\.\d+){0,2}` — split on `'.'`,
the first component is a single (ASCII) digit and at most two further
components follow, each a non-empty digit string. -/
def versionOK (v : List Char) : Bool :=
  match splitOnC '.' v with
  | [] => false
  | c0 :: rest =>
    (match c0 with
     | [d] => d.isDigit
     | _ => false)
    && decide (rest.length ≤ 2)
    && rest.all (fun comp => !comp.isEmpty && comp.all Char.isDigit)

/-- The `name` group of `URI_REGEX`: `[^/#?]+`. -/
def nameOK (n : List Char) : Bool :=
  !n.isEmpty && n.all (fun ch => ch != '/' && ch != '#' && ch != '?')

/-- The `namespace` group of `URI_REGEX`: `https?://.+` (`.` does not match a
newline in Python `re`). -/
def nsOK (ns : List Char) : Bool :=
  (("http://".data.isPrefixOf ns && decide (7 < ns.length))
    || ("https://".data.isPrefixOf ns && decide (8 < ns.length)))
  && ns.all (fun ch => ch != '\n')

/-- A full match of `URI_REGEX` against `s`, decomposed into the three groups. -/
def uriSplit (s ns v n : List Char) : Prop :=
  s = ns ++ '/' :: (v ++ '/' :: n) ∧ nsOK ns = true ∧ versionOK v = true ∧ nameOK n = true

/-- `get_uri` (src/entities_service/models/__init__.py): the canonical identity
string `f"{namespace}/{version}/{name}"`. -/
def buildIdentity (ns v n : List Char) : List Char :=
  ns ++ '/' :: (v ++ '/' :: n)

/-- The unique decomposition of a `URI_REGEX` match: the name group cannot
contain `'/'`, so it is the segment after the last slash; the version group
cannot contain `'/'`, so it is the segment between the last two slashes. -/
def parseURI (s : List Char) : Option (List Char × List Char × List Char) :=
  match splitAtLast '/' s with
  | none => none
  | some (pre, nm) =>
    match splitAtLast '/' pre with
    | none => none
    | some (ns, ver) =>
      if nsOK ns && versionOK ver && nameOK nm then some (ns, ver, nm) else none

/-- The version grammar as the claim's sentence words it: "1-3 dot-separated
non-negative integers".  This is a refinement-side definition following the
spec's words, to be compared with `versionOK`, which follows the source regex
`\d(?:\.\d+){0,2}`. -/
def specVersionOK (v : List Char) : Bool :=
  let comps := splitOnC '.' v
  decide (1 ≤ comps.length) && decide (comps.length ≤ 3)
    && comps.all (fun comp => !comp.isEmpty && comp.all Char.isDigit)

/-! ## SOFT entity models and the schema-variant resolver

`src/entities_service/models/soft5.py` and `soft7.py` define the two pydantic
schema variants (variant A: list-of-properties `SOFT5Entity`; variant B:
map-of-properties `SOFT7Entity`), and
`src/entities_service/models/__init__.py::soft_entity` tries them in the order
`get_args(SOFT7Entity | SOFT5Entity) = (SOFT7Entity, SOFT5Entity)`, returning
the first success or, with `return_errors=True`, the list of both
`ValidationError`s.  Raw payloads are modelled as records of optional fields;
validation errors as lists of message strings.  The `CONFIG.base_url` value
checked by `SOFT7Entity._validate_base_url` is deployment configuration, so it
is a parameter `baseUrl` here.  pydantic's `AnyHttpUrl` parsing is abstracted
to its scheme/non-emptiness test (`isHttpUrl`); URL normalisation is not
modelled (witnesses below use URLs that pydantic leaves unchanged). -/

/-- A raw property record as it appears in a decoded JSON/YAML payload. -/
structure RawProperty where
  name : Option String := none
  type_ : Option String := none
  ref : Option String := none
  dims : Option (List String) := none
  shape : Option (List String) := none
  unit : Option String := none
  description : Option String := none
deriving DecidableEq

/-- A raw dimension record (variant A shape). -/
structure RawDimension where
  name : Option String := none
  description : Option String := none
deriving DecidableEq

/-- The two wire shapes a raw `dimensions` value can take. -/
inductive RawDims
  | dlist (ds : List RawDimension)
  | dmap (ds : List (String × String))
deriving DecidableEq

/-- The two wire shapes a raw `properties` value can take. -/
inductive RawProps
  | plist (ps : List RawProperty)
  | pmap (ps : List (String × RawProperty))
deriving DecidableEq

/-- A raw entity payload (a decoded JSON/YAML mapping). -/
structure RawEntity where
  name : Option String := none
  version : Option String := none
  namespace_ : Option String := none
  uri : Option String := none
  meta : Option String := none
  description : Option String := none
  dimensions : Option RawDims := none
  properties : Option RawProps := none
deriving DecidableEq

/-- `SOFT5Dimension` (soft5.py). -/
structure SOFT5Dimension where
  name : String
  description : String
deriving DecidableEq

/-- `SOFT5Property` (soft5.py). -/
structure SOFT5Property where
  name : Option String
  type_ : String
  ref : Option String
  dims : Option (List String)
  unit : Option String
  description : String
deriving DecidableEq

/-- `SOFT5Entity` (soft5.py): variant A, list-shaped dimensions/properties. -/
structure SOFT5Entity where
  name : Option String
  version : Option String
  namespace_ : Option String
  uri : Option String
  meta : String
  description : String
  dimensions : List SOFT5Dimension
  properties : List SOFT5Property
deriving DecidableEq

/-- `SOFT7Property` (soft7.py). -/
structure SOFT7Property where
  name : Option String
  type_ : String
  ref : Option String
  shape : Option (List String)
  unit : Option String
  description : String
deriving DecidableEq

/-- `SOFT7Entity` (soft7.py): variant B, map-shaped dimensions/properties. -/
structure SOFT7Entity where
  name : Option String
  version : Option String
  namespace_ : Option String
  uri : Option String
  meta : String
  description : String
  dimensions : List (String × String)
  properties : List (String × SOFT7Property)
deriving DecidableEq

/-- `VersionedSOFTEntity = SOFT7Entity | SOFT5Entity` (models/__init__.py). -/
inductive VersionedSOFTEntity
  | soft7 (e : SOFT7Entity)
  | soft5 (e : SOFT5Entity)
deriving DecidableEq

/-- The single supported schema-of-schemas reference. -/
def entitySchemaMeta : String := "http://onto-ns.com/meta/0.3/EntitySchema"

/-- `str.startswith` check that reduces in the kernel. -/
def strPrefixOf (p s : String) : Bool :=
  p.data.isPrefixOf s.data

/-- pydantic `AnyHttpUrl` acceptance, abstracted to its scheme test. -/
def isHttpUrl (s : String) : Bool :=
  (strPrefixOf "http://" s && decide (7 < s.length))
    || (strPrefixOf "https://" s && decide (8 < s.length))

/-- `URI_REGEX.match(s) is not None`, via the unique-decomposition parser. -/
def uriRegexMatches (s : String) : Bool :=
  (parseURI s.data).isSome

/-- Error message of the first cross-field check. -/
def msgAllOrNone : String :=
  "Either all of name, version, and namespace must be set or all must be unset."

/-- Error message of the second cross-field check. -/
def msgPartsOrUri : String :=
  "Either name, version, and namespace or uri must be set."

/-- Error message of the uri/parts consistency check. -/
def msgInconsistent : String :=
  "The uri is not consistent with name, version, and namespace."

/-- `_check_cross_dependent_fields` (identical `model_validator(mode="before")`
in soft5.py and soft7.py): three sequential checks, the first failure raised. -/
def crossFieldErr (raw : RawEntity) : Option String :=
  let anyNone := raw.name.isNone || raw.version.isNone || raw.namespace_.isNone
  let allNone := raw.name.isNone && raw.version.isNone && raw.namespace_.isNone
  if anyNone && !allNone then some msgAllOrNone
  else if anyNone && raw.uri.isNone then some msgPartsOrUri
  else
    match raw.name, raw.version, raw.namespace_, raw.uri with
    | some n, some v, some ns, some u =>
      if u = ns ++ "/" ++ v ++ "/" ++ n then none else some msgInconsistent
    | _, _, _, _ => none

/-- Field validation of one `SOFT5Property`: `type` and `description` are
required, `ref` must be an http(s) URL when present. -/
def validateSOFT5Property (p : RawProperty) : List String :=
  (match p.type_ with
   | none => ["properties: type: Field required"]
   | some _ => [])
  ++ (match p.ref with
      | some r => if isHttpUrl r then [] else ["properties: ref: Input is not a valid URL"]
      | none => [])
  ++ (match p.description with
      | none => ["properties: description: Field required"]
      | some _ => [])

/-- Field validation of one `SOFT5Dimension`: `name` and `description` required. -/
def validateSOFT5Dimension (d : RawDimension) : List String :=
  (match d.name with
   | none => ["dimensions: name: Field required"]
   | some _ => [])
  ++ (match d.description with
      | none => ["dimensions: description: Field required"]
      | some _ => [])

/-- Validation against `SOFT5Entity` (variant A): the before-validator first,
then per-field checks in field-declaration order, collecting every error. -/
def validateSOFT5 (raw : RawEntity) : Except (List String) SOFT5Entity :=
  match crossFieldErr raw with
  | some m => .error [m]
  | none =>
    let nsErrs := match raw.namespace_ with
      | none => []
      | some s => if isHttpUrl s then [] else ["namespace: Input is not a valid URL"]
    let uriErrs := match raw.uri with
      | none => []
      | some u =>
        if !isHttpUrl u then ["uri: Input is not a valid URL"]
        else if !uriRegexMatches u then
          ["The uri is not a valid SOFT7 entity URI. It must be of the form namespace/version/name."]
        else []
    let metaErrs := match raw.meta with
      | none => []
      | some m =>
        if !isHttpUrl m then ["meta: Input is not a valid URL"]
        else if m ≠ entitySchemaMeta then
          ["This service only works with entities using EntitySchema v0.3 at onto-ns.com as the metadata entity."]
        else []
    let dimErrs := match raw.dimensions with
      | none => []
      | some (.dlist ds) => ds.flatMap validateSOFT5Dimension
      | some (.dmap _) => ["dimensions: Input should be a valid list"]
    let propErrs := match raw.properties with
      | none => ["properties: Field required"]
      | some (.plist ps) => ps.flatMap validateSOFT5Property
      | some (.pmap _) => ["properties: Input should be a valid list"]
    let errs := nsErrs ++ uriErrs ++ metaErrs ++ dimErrs ++ propErrs
    if errs.isEmpty then
      .ok
        { name := raw.name
          version := raw.version
          namespace_ := raw.namespace_
          uri := raw.uri
          meta := raw.meta.getD entitySchemaMeta
          description := raw.description.getD ""
          dimensions :=
            match raw.dimensions with
            | some (.dlist ds) => ds.map (fun d => ⟨d.name.getD "", d.description.getD ""⟩)
            | _ => []
          properties :=
            match raw.properties with
            | some (.plist ps) =>
              ps.map (fun p => ⟨p.name, p.type_.getD "", p.ref, p.dims, p.unit, p.description.getD ""⟩)
            | _ => [] }
    else .error errs

/-- Field validation of one `SOFT7Property`: `type` and `description` are
required, `ref` must be an http(s) URL when present. -/
def validateSOFT7Property (p : RawProperty) : List String :=
  (match p.type_ with
   | none => ["properties: type: Field required"]
   | some _ => [])
  ++ (match p.ref with
      | some r => if isHttpUrl r then [] else ["properties: ref: Input is not a valid URL"]
      | none => [])
  ++ (match p.description with
      | none => ["properties: description: Field required"]
      | some _ => [])

/-- Validation against `SOFT7Entity` (variant B): the before-validator first,
then per-field checks in declaration order; `uri` and `namespace` must
additionally start with the service base URL (`_validate_base_url`), applied
before the `URI_REGEX` check (`_validate_uri`), matching the validator
declaration order in soft7.py. -/
def validateSOFT7 (baseUrl : String) (raw : RawEntity) : Except (List String) SOFT7Entity :=
  match crossFieldErr raw with
  | some m => .error [m]
  | none =>
    let nsErrs := match raw.namespace_ with
      | none => []
      | some s =>
        if !isHttpUrl s then ["namespace: Input is not a valid URL"]
        else if !strPrefixOf baseUrl s then ["This service only works with entities at the base URL."]
        else []
    let uriErrs := match raw.uri with
      | none => []
      | some u =>
        if !isHttpUrl u then ["uri: Input is not a valid URL"]
        else if !strPrefixOf baseUrl u then ["This service only works with entities at the base URL."]
        else if !uriRegexMatches u then
          ["The uri is not a valid SOFT7 entity URI. It must be of the form base/version/name."]
        else []
    let metaErrs := match raw.meta with
      | none => []
      | some m =>
        if !isHttpUrl m then ["meta: Input is not a valid URL"]
        else if m ≠ entitySchemaMeta then
          ["This service only works with entities using EntitySchema v0.3 at onto-ns.com as the metadata entity."]
        else []
    let dimErrs := match raw.dimensions with
      | none => []
      | some (.dmap _) => []
      | some (.dlist _) => ["dimensions: Input should be a valid dictionary"]
    let propErrs := match raw.properties with
      | none => ["properties: Field required"]
      | some (.pmap ps) => ps.flatMap (fun kv => validateSOFT7Property kv.2)
      | some (.plist _) => ["properties: Input should be a valid dictionary"]
    let errs := nsErrs ++ uriErrs ++ metaErrs ++ dimErrs ++ propErrs
    if errs.isEmpty then
      .ok
        { name := raw.name
          version := raw.version
          namespace_ := raw.namespace_
          uri := raw.uri
          meta := raw.meta.getD entitySchemaMeta
          description := raw.description.getD ""
          dimensions :=
            match raw.dimensions with
            | some (.dmap ds) => ds
            | _ => []
          properties :=
            match raw.properties with
            | some (.pmap ps) =>
              ps.map (fun kv =>
                (kv.1, ⟨kv.2.name, kv.2.type_.getD "", kv.2.ref, kv.2.shape, kv.2.unit,
                        kv.2.description.getD ""⟩))
            | _ => [] }
    else .error errs

/-- `soft_entity(return_errors=True, **fields)` (models/__init__.py): try the
variants in `get_args(SOFT7Entity | SOFT5Entity)` order — variant B
(`SOFT7Entity`) first, then variant A (`SOFT5Entity`); return the first
success, or the list of both validation errors in attempt order. -/
def soft_entity (baseUrl : String) (raw : RawEntity) :
    Except (List (List String)) VersionedSOFTEntity :=
  match validateSOFT7 baseUrl raw with
  | .ok e => .ok (.soft7 e)
  | .error errs7 =>
    match validateSOFT5 raw with
    | .ok e => .ok (.soft5 e)
    | .error errs5 => .error [errs7, errs5]

/-- Python `f"{x}"` of an optional string (`None` renders as `"None"`). -/
def optStr (o : Option String) : String := o.getD "None"

/-- Accessor across the union. -/
def VersionedSOFTEntity.uri : VersionedSOFTEntity → Option String
  | .soft7 e => e.uri
  | .soft5 e => e.uri

/-- Accessor across the union. -/
def VersionedSOFTEntity.version : VersionedSOFTEntity → Option String
  | .soft7 e => e.version
  | .soft5 e => e.version

/-- Accessor across the union. -/
def VersionedSOFTEntity.namespace_ : VersionedSOFTEntity → Option String
  | .soft7 e => e.namespace_
  | .soft5 e => e.namespace_

/-- Accessor across the union. -/
def VersionedSOFTEntity.name : VersionedSOFTEntity → Option String
  | .soft7 e => e.name
  | .soft5 e => e.name

/-- `get_uri` (models/__init__.py): the entity's `uri` if set, else
`f"{namespace}/{version}/{name}"`. -/
def get_uri (e : VersionedSOFTEntity) : String :=
  match e.uri with
  | some u => u
  | none => optStr e.namespace_ ++ "/" ++ optStr e.version ++ "/" ++ optStr e.name

/-- `get_version` (models/__init__.py): the `version` field if set, else the
version group of `URI_REGEX` matched against the `uri`. -/
def get_version (e : VersionedSOFTEntity) : Except String String :=
  match e.version with
  | some v => .ok v
  | none =>
    match parseURI (optStr e.uri).data with
    | some (_, ver, _) => .ok (String.mk ver)
    | none => .error "Cannot parse URI to get version."

/-- Decimal digit-string to number (Python `int`). -/
def digitsToNat (ds : List Char) : Nat :=
  ds.foldl (fun acc c => acc * 10 + (c.toNat - '0'.toNat)) 0

/-- `get_updated_version` (models/__init__.py): split the current version on
dots; every component must be numeric; 1 component appends `.1`, 2 components
append `.1`, 3 components increment the last component. -/
def get_updated_version (e : VersionedSOFTEntity) : Except String String :=
  match get_version e with
  | .error m => .error m
  | .ok cv =>
    let parts := splitOnC '.' cv.data
    if !parts.all (fun p => !p.isEmpty && p.all Char.isDigit) then
      .error "Cannot parse version to get updated version."
    else
      match parts with
      | [a] => .ok (String.mk a ++ ".1")
      | [a, b] => .ok (String.mk a ++ "." ++ String.mk b ++ ".1")
      | [a, b, c] =>
        .ok (String.mk a ++ "." ++ String.mk b ++ "." ++ Nat.repr (digitsToNat c + 1))
      | _ => .error "Cannot parse version to get updated version."

/-- An entity carrying only a version, for exercising the version-bump rule. -/
def sampleEntityWithVersion (v : String) : VersionedSOFTEntity :=
  .soft5 ⟨none, some v, none, none, entitySchemaMeta, "", [], []⟩

/-- A raw payload that validates under the variant-B (`SOFT7Entity`) model. -/
def rawPersonSOFT7 : RawEntity :=
  { uri := some "http://onto-ns.com/0.1/Person"
    properties := some (.pmap [("age", { type_ := some "int", description := some "Age of the person." })]) }

/-- The validated variant-B form of `rawPersonSOFT7`. -/
def personSOFT7 : SOFT7Entity :=
  { name := none
    version := none
    namespace_ := none
    uri := some "http://onto-ns.com/0.1/Person"
    meta := entitySchemaMeta
    description := ""
    dimensions := []
    properties := [("age", ⟨none, "int", none, none, none, "Age of the person."⟩)] }

/-- A raw payload failing both variants with the same cross-field error. -/
def rawNameOnly : RawEntity := { name := some "Person" }

/-! ## Backend containment check (C10)

`Backend.__contains__` (src/entities_service/service/backend/backend.py, and
with the same structure src/dataspaces_entities/backend/backend.py): a dict is
first resolved through the schema-variant resolver and malformed input yields
`False` without reaching `read`; a string or resolved model is looked up via
`read`; any other type yields `False`.  The backend's `read` is abstract here
(`readFn`), and the second component of the result records exactly the
identities passed to `read`, so "does not query the store" is observable. -/

/-- The argument domain of `__contains__`. -/
inductive ContainsItem
  | dict (raw : RawEntity)
  | str (s : String)
  | model (e : VersionedSOFTEntity)
  | other

/-- `Backend.__contains__`, returning the boolean result together with the
list of identities that were passed to `read`. -/
def backendContains (baseUrl : String) (readFn : String → Option Unit) :
    ContainsItem → Bool × List String
  | .dict raw =>
    match soft_entity baseUrl raw with
    | .error _ => (false, [])
    | .ok e => ((readFn (get_uri e)).isSome, [get_uri e])
  | .str s => ((readFn s).isSome, [s])
  | .model e => ((readFn (get_uri e)).isSome, [get_uri e])
  | .other => (false, [])

/-! ## MongoDB backend (C2, C3, C5, C7)

`src/dataspaces_entities/backend/mongodb.py::MongoDBBackend` holds one flat
collection of documents with a unique `IDENTITY` index over the `identity`
field, created by `initialize()`.  Documents are modelled as ordered
association lists of field name to value; values are restricted to the strings
and integers the claims exercise.  `insert_many` is pymongo's ordered bulk
insert: with the unique index in place, a document whose identity duplicates a
stored one aborts the remainder with a `BulkWriteError` carrying the
duplicate-key code 11000 (documents inserted before the failure remain).
The identity validator `SOFT7IdentityURI` lives in the external `s7` package;
it is modelled from the spec as the Identity Codec grammar (`parseURI`). -/

/-- A stored field value. -/
inductive BVal
  | s (v : String)
  | i (v : Int)
deriving DecidableEq

/-- A MongoDB document: an ordered association list of fields. -/
abbrev MongoDoc := List (String × BVal)

/-- First value stored under field `k` (Python `dict` access). -/
def lookupField (k : String) : MongoDoc → Option BVal
  | [] => none
  | (k0, v) :: d => if k0 = k then some v else lookupField k d

/-- A MongoDB index as reported by `index_information()`. -/
structure IndexSpec where
  key : List (String × Int)
  unique : Bool
deriving DecidableEq

/-- One MongoDB collection: stored documents plus the optional IDENTITY index. -/
structure MongoCollection where
  docs : List MongoDoc
  index : Option IndexSpec
deriving DecidableEq

/-- A pymongo write failure, as discriminated by `create`'s except clause. -/
structure WriteErrDetail where
  code : Option Int
deriving DecidableEq

/-- The pymongo exception kinds relevant to `create`. -/
inductive PyMongoErr
  | duplicateKey
  | bulkWrite (writeErrors : List WriteErrDetail)
  | writeConcern
  | writeErr
  | operationFailure
  | invalidDocument
  | otherFailure
deriving DecidableEq

/-- What `create` does with a raised insert failure. -/
inductive CreateOutcome
  | entityExists
  | propagate (e : PyMongoErr)
deriving DecidableEq

/-- Errors surfaced by the backend operations. -/
inductive CreateError
  | entityExists (ids : List String)
  | invalidEntity (msg : String)
  | backendFailure (e : PyMongoErr)
deriving DecidableEq

/-- Errors surfaced by `update`/`delete`. -/
inductive BackendErr
  | invalidEntity (msg : String)
deriving DecidableEq

namespace MongoDBBackend

/-- Modelled from the spec: `SOFT7IdentityURI` of the external `s7` package,
the Identity Codec grammar `{namespace}/{version}/{name}` (spec section 4.1),
validated here via the `URI_REGEX` decomposition parser. -/
def soft7IdentityOK (s : String) : Bool :=
  (parseURI s.data).isSome

/-- `initialize` (mongodb.py lines 155-172): if an `IDENTITY` index already
exists it is left untouched (mismatches are only warned about); otherwise a
unique index over `identity` is created. -/
def initializeCollection (c : MongoCollection) : MongoCollection :=
  match c.index with
  | some _ => c
  | none => { c with index := some { key := [("identity", 1)], unique := true } }

/-- Whether the stored index actually enforces identity uniqueness. -/
def uniqueIdentityEnforced (c : MongoCollection) : Bool :=
  match c.index with
  | some ix => ix.unique && decide (ix.key = [("identity", 1)])
  | none => false

/-- pymongo `insert_many` (ordered) under the unique IDENTITY index. -/
def insert_many (c : MongoCollection) :
    List MongoDoc → MongoCollection × Except PyMongoErr Unit
  | [] => (c, .ok ())
  | d :: ds =>
    if uniqueIdentityEnforced c
        && c.docs.any (fun d0 => decide (lookupField "identity" d0 = lookupField "identity" d)) then
      (c, .error (.bulkWrite [⟨some 11000⟩]))
    else
      insert_many { c with docs := c.docs ++ [d] } ds

/-- The except clause of `create` (mongodb.py lines 196-203): only
`DuplicateKeyError` and `BulkWriteError` are caught; a `BulkWriteError` whose
write-error details contain no entry with code 11000 is re-raised unchanged;
every other failure propagates unchanged; what remains is a duplicate-key
failure reported as `EntityExists`. -/
def classifyCreateFailure (e : PyMongoErr) : CreateOutcome :=
  match e with
  | .duplicateKey => .entityExists
  | .bulkWrite details =>
    if details.any (fun w => decide (w.code = some 11000)) then .entityExists
    else .propagate (.bulkWrite details)
  | e => .propagate e

/-- `get_identity` (src/dataspaces_entities/utils.py): the `uri` field if
present, else the `identity` field, else
`f"{namespace.rstrip('/')}/{version}/{name}"` when all three parts are
strings; otherwise an `InvalidEntityError`. -/
def get_identity (d : MongoDoc) : Except String String :=
  match lookupField "uri" d with
  | some (.s u) => .ok u
  | some _ => .error "entity uri is not a string"
  | none =>
    match lookupField "identity" d with
    | some (.s i) => .ok i
    | some _ => .error "entity identity is not a string"
    | none =>
      match lookupField "namespace" d, lookupField "version" d, lookupField "name" d with
      | some (.s ns), some (.s v), some (.s n) =>
        .ok (String.mk ((ns.data.reverse.dropWhile (fun ch => ch = '/')).reverse)
          ++ "/" ++ v ++ "/" ++ n)
      | _, _, _ =>
        .error "Entity must have either an identity/URI or namespace, version, and name."

/-- `[get_identity(entity) for entity in entities]`: collect the identities,
raising at the first failure. -/
def identitiesOf : List MongoDoc → Except String (List String)
  | [] => .ok []
  | d :: ds =>
    match get_identity d, identitiesOf ds with
    | .ok i, .ok is => .ok (i :: is)
    | .error m, _ => .error m
    | _, .error m => .error m

/-- `search(by_identities=...)` (mongodb.py lines 350-370): every string
identity is validated, then the filter
`{"identity": {"$in": identities}}` selects the stored documents. -/
def search_by_identities (c : MongoCollection) (ids : List String) :
    Except String (List MongoDoc) :=
  if ids.all soft7IdentityOK then
    .ok (c.docs.filter (fun d => ids.any (fun i => decide (lookupField "identity" d = some (.s i)))))
  else .error "Invalid entity identity"

/-- `create` (mongodb.py lines 174-230): insert all prepared documents with
`insert_many`; on a duplicate-key failure (per `classifyCreateFailure`) the
existing colliding documents are looked up via `search(by_identities=...)` and
their identities reported as `EntityExists`; any other failure propagates.
(The cap that `generate_error_display_ids` applies to the displayed identity
list is presentation and not modelled; on success the stored form is returned,
modelled as the inserted documents, which carry no internal `_id`.) -/
def create (c : MongoCollection) (entities : List MongoDoc) :
    MongoCollection × Except CreateError (List MongoDoc) :=
  match insert_many c entities with
  | (c', .ok _) => (c', .ok entities)
  | (c', .error e) =>
    match classifyCreateFailure e with
    | .propagate pe => (c', .error (.backendFailure pe))
    | .entityExists =>
      match identitiesOf entities with
      | .error m => (c', .error (.invalidEntity m))
      | .ok entity_ids =>
        match search_by_identities c' entity_ids with
        | .error m => (c', .error (.invalidEntity m))
        | .ok existing =>
          match identitiesOf existing with
          | .error m => (c', .error (.invalidEntity m))
          | .ok existing_ids => (c', .error (.entityExists existing_ids))

/-- MongoDB `$set`: every field of `patch` is written into `old` (overwriting
or appending); fields of `old` not named in `patch` are left in place. -/
def mergeSet (old patch : MongoDoc) : MongoDoc :=
  old.map (fun kv =>
    match lookupField kv.1 patch with
    | some v => (kv.1, v)
    | none => kv)
  ++ patch.filter (fun kv => (lookupField kv.1 old).isNone)

/-- pymongo `update_one` with a `$set` document: the first matching stored
document is merged with the patch; everything else is untouched. -/
def setFirstMatch (pred : MongoDoc → Bool) (patch : MongoDoc) : List MongoDoc → List MongoDoc
  | [] => []
  | d :: ds => if pred d then mergeSet d patch :: ds else d :: setFirstMatch pred patch ds

/-- `update` (mongodb.py lines 245-262): `_single_identity_query` validates the
identity (raising `InvalidEntityError` on a grammar failure), then
`update_one({"identity": identity}, {"$set": entity})` is issued. -/
def update (c : MongoCollection) (entity_identity : String) (entity : MongoDoc) :
    MongoCollection × Except BackendErr Unit :=
  if soft7IdentityOK entity_identity then
    ({ c with
        docs := setFirstMatch
          (fun d => decide (lookupField "identity" d = some (.s entity_identity)))
          entity c.docs },
      .ok ())
  else (c, .error (.invalidEntity ("Invalid entity identity: " ++ entity_identity)))

/-- `delete` (mongodb.py lines 264-286): every given identity is validated
first (the loop raises `InvalidEntityError` before any deletion); only then
`delete_many({"identity": {"$in": identities}})` removes every match. -/
def delete (c : MongoCollection) (entity_identities : List String) :
    MongoCollection × Except BackendErr Unit :=
  if entity_identities.all soft7IdentityOK then
    ({ c with docs := c.docs.filter (fun d =>
        !(entity_identities.any (fun i => decide (lookupField "identity" d = some (.s i))))) },
      .ok ())
  else (c, .error (.invalidEntity "Invalid entity identity"))

end MongoDBBackend

/-- A prepared entity document used to exercise the backend operations. -/
def docB : MongoDoc := [("identity", BVal.s "http://onto-ns.com/0.1/A")]

/-- A failure is a duplicate-key failure exactly when it is a
`DuplicateKeyError`, or a `BulkWriteError` whose write-error details contain
an entry with the duplicate-key code 11000. -/
def isDuplicateKeyFailure (e : PyMongoErr) : Prop :=
  e = .duplicateKey ∨
    ∃ ws, e = .bulkWrite ws ∧ ws.any (fun w => decide (w.code = some 11000)) = true

/-- A stored document carrying a field (`unit`) that the replacement lacks. -/
def docA : MongoDoc :=
  [("identity", BVal.s "http://onto-ns.com/0.1/A"),
   ("description", BVal.s "old"),
   ("unit", BVal.s "m")]

/-- A replacement document that does not name the stored `unit` field. -/
def patchA : MongoDoc :=
  [("identity", BVal.s "http://onto-ns.com/0.1/A"),
   ("description", BVal.s "new")]

/-! ## CLI upload driver (C6)

`src/entities_service/cli/main.py::upload` walks the candidate files, sorting
each into `successes` (parsed, validated, version-negotiated, ready to send),
`skipped`, or `failed`; with `--fail-fast` the first failure aborts the run
immediately.  After the loop (lines 358-415): if `failed` is non-empty the
command prints the failed files and raises `Exit(1)` — *before* the upload
block — so no batch create call is made; otherwise the non-skipped candidates
are posted in a single `/_admin/create` call and the summary lists the
succeeded and skipped files.  The per-file classification work (file-format
filter, schema-variant validation, remote comparison, version prompt) is
abstracted into the per-file `StepResult`; the claim under test concerns only
how the driver batches and summarises those results. -/

/-- What the loop body concluded for one candidate file. -/
inductive StepResult
  | ok (e : MongoDoc)
  | skip
  | fail
deriving DecidableEq

/-- Observable outcome of an upload run: the single batch create call (if one
was made), the exit code, and the file lists printed in the summary. -/
structure UploadOutcome where
  batchCall : Option (List MongoDoc)
  exitCode : Nat
  succeededListed : List String
  skippedListed : List String
  failedListed : List String
deriving DecidableEq

/-- The candidate loop (cli/main.py lines 162-356): accumulate successes,
skipped and failed files in encounter order; `--fail-fast` aborts with exit
code 1 at a failure. -/
def uploadLoop (failFast : Bool) :
    List (String × StepResult) → Except Nat (List (String × MongoDoc) × List String × List String)
  | [] => .ok ([], [], [])
  | (p, r) :: rest =>
    match r with
    | .ok e => (uploadLoop failFast rest).map (fun acc => ((p, e) :: acc.1, acc.2.1, acc.2.2))
    | .skip => (uploadLoop failFast rest).map (fun acc => (acc.1, p :: acc.2.1, acc.2.2))
    | .fail =>
      if failFast then .error 1
      else (uploadLoop failFast rest).map (fun acc => (acc.1, acc.2.1, p :: acc.2.2))

/-- The post-loop stage (cli/main.py lines 358-415): when any file failed, the
failed files are reported and the run exits with code 1 before the upload
block; otherwise the successes (if any) are posted in one batch create call
and the summary lists succeeded and skipped files. -/
def uploadEpilogue (successes : List (String × MongoDoc)) (skipped failed : List String) :
    UploadOutcome :=
  if failed.isEmpty then
    { batchCall := if successes.isEmpty then none else some (successes.map Prod.snd)
      exitCode := 0
      succeededListed := successes.map Prod.fst
      skippedListed := skipped
      failedListed := [] }
  else
    { batchCall := none
      exitCode := 1
      succeededListed := []
      skippedListed := []
      failedListed := failed }

/-- The whole `upload` command over pre-classified candidates. -/
def upload (failFast : Bool) (files : List (String × StepResult)) : Except Nat UploadOutcome :=
  (uploadLoop failFast files).map (fun acc => uploadEpilogue acc.1 acc.2.1 acc.2.2)

/-- Successful candidate of a processed file, if any. -/
def stepOk : String × StepResult → Option (String × MongoDoc)
  | (p, .ok e) => some (p, e)
  | _ => none

/-- Whether a processed file was skipped. -/
def isSkipStep (pr : String × StepResult) : Bool :=
  match pr.2 with
  | .skip => true
  | _ => false

/-- Whether a processed file failed. -/
def isFailStep (pr : String × StepResult) : Bool :=
  match pr.2 with
  | .fail => true
  | _ => false

/-! ## Identity codec properties (C1) -/

theorem splitAtFirst_some_iff {c : Char} :
    ∀ {s a b : List Char}, splitAtFirst c s = some (a, b) ↔ s = a ++ c :: b ∧ c ∉ a := by
  intro s
  induction s with
  | nil =>
    intro a b
    simp [splitAtFirst]
  | cons x xs ih =>
    intro a b
    by_cases hx : x = c
    · subst hx
      simp only [splitAtFirst, if_pos rfl]
      constructor
      · rintro h
        injection h with h
        injection h with h1 h2
        subst h1; subst h2
        simp
      · rintro ⟨hs, hc⟩
        match a with
        | [] => simp at hs; simp [hs]
        | y :: a' =>
          exfalso
          simp at hs
          exact hc (by simp [hs.1])
    · simp only [splitAtFirst, if_neg hx]
      constructor
      · intro h
        rcases Option.map_eq_some'.mp h with ⟨⟨a', b'⟩, hsp, heq⟩
        simp only [Prod.mk.injEq] at heq
        obtain ⟨h1, h2⟩ := heq
        rcases (ih.mp hsp) with ⟨hs, hc⟩
        subst h1; subst h2
        refine ⟨by simp [hs], ?_⟩
        intro hmem
        rcases List.mem_cons.mp hmem with h | h
        · exact hx h.symm
        · exact hc h
      · rintro ⟨hs, hc⟩
        match a with
        | [] =>
          exfalso
          simp at hs
          exact hx hs.1
        | y :: a' =>
          simp at hs
          obtain ⟨hy, hxs⟩ := hs
          subst hy
          have hc' : c ∉ a' := fun h => hc (List.mem_cons_of_mem _ h)
          rw [ih.mpr ⟨hxs, hc'⟩]
          rfl

theorem splitAtLast_some_iff {c : Char} {s a b : List Char} :
    splitAtLast c s = some (a, b) ↔ s = a ++ c :: b ∧ c ∉ b := by
  unfold splitAtLast
  constructor
  · intro h
    cases hsf : splitAtFirst c s.reverse with
    | none => rw [hsf] at h; exact absurd h (by simp)
    | some p =>
      rw [hsf] at h
      obtain ⟨p1, p2⟩ := p
      simp only [Option.some.injEq, Prod.mk.injEq] at h
      obtain ⟨ha, hb⟩ := h
      obtain ⟨hs, hc⟩ := splitAtFirst_some_iff.mp hsf
      constructor
      · have : s = (p1 ++ c :: p2).reverse := by
          rw [← hs, List.reverse_reverse]
        rw [this, ← ha, ← hb]
        simp
      · rw [← hb]
        simpa using hc
  · rintro ⟨hs, hc⟩
    have hrev : splitAtFirst c s.reverse = some (b.reverse, a.reverse) := by
      apply splitAtFirst_some_iff.mpr
      constructor
      · rw [hs]
        simp
      · simpa using hc
    rw [hrev]
    simp

theorem splitOnC_ne_nil (c : Char) (s : List Char) : splitOnC c s ≠ [] := by
  induction s with
  | nil => simp [splitOnC]
  | cons x xs ih =>
    by_cases hx : x = c
    · simp [splitOnC, hx]
    · simp only [splitOnC, if_neg hx]
      cases h : splitOnC c xs with
      | nil => simp
      | cons hh tt => simp

theorem mem_splitOnC_of_mem {c x : Char} :
    ∀ {s : List Char}, x ∈ s → x = c ∨ ∃ l ∈ splitOnC c s, x ∈ l := by
  intro s
  induction s with
  | nil => intro h; simp at h
  | cons y ys ih =>
    intro hmem
    by_cases hy : y = c
    · rcases List.mem_cons.mp hmem with h | h
      · exact Or.inl (h.trans hy)
      · rcases ih h with h' | ⟨l, hl, hxl⟩
        · exact Or.inl h'
        · exact Or.inr ⟨l, by simp [splitOnC, hy, hl], hxl⟩
    · simp only [splitOnC, if_neg hy]
      cases hsp : splitOnC c ys with
      | nil => exact absurd hsp (splitOnC_ne_nil c ys)
      | cons h t =>
        rcases List.mem_cons.mp hmem with hx | hx
        · exact Or.inr ⟨y :: h, by simp, by simp [hx]⟩
        · rcases ih hx with h' | ⟨l, hl, hxl⟩
          · exact Or.inl h'
          · rw [hsp] at hl
            rcases List.mem_cons.mp hl with rfl | hl'
            · exact Or.inr ⟨y :: l, by simp, by simp [hxl]⟩
            · exact Or.inr ⟨l, by simp [hl'], hxl⟩

theorem versionOK_no_slash {v : List Char} (h : versionOK v = true) : '/' ∉ v := by
  intro hmem
  rcases mem_splitOnC_of_mem (c := '.') hmem with h' | ⟨l, hl, hxl⟩
  · exact absurd h' (by decide)
  · unfold versionOK at h
    cases hsp : splitOnC '.' v with
    | nil => exact absurd hsp (splitOnC_ne_nil _ _)
    | cons c0 rest =>
      rw [hsp] at h hl
      simp only [Bool.and_eq_true] at h
      obtain ⟨⟨h0, _⟩, hall⟩ := h
      rcases List.mem_cons.mp hl with rfl | hl'
      · match l, h0, hxl with
        | [d], h0, hxl =>
          have hd : '/' = d := by simpa using hxl
          rw [← hd] at h0
          exact absurd h0 (by decide)
      · have := List.all_eq_true.mp hall l hl'
        simp only [Bool.and_eq_true] at this
        have hdig := List.all_eq_true.mp this.2 '/' hxl
        exact absurd hdig (by decide)

theorem nameOK_no_slash {n : List Char} (h : nameOK n = true) : '/' ∉ n := by
  intro hmem
  unfold nameOK at h
  simp only [Bool.and_eq_true] at h
  have := List.all_eq_true.mp h.2 '/' hmem
  simp at this

/-- Completeness of the decomposition: any full `URI_REGEX` match is found by
`parseURI` with exactly the matching groups. -/
theorem parseURI_complete {s ns v n : List Char} (h : uriSplit s ns v n) :
    parseURI s = some (ns, v, n) := by
  obtain ⟨hs, hns, hv, hn⟩ := h
  have h1 : splitAtLast '/' s = some (ns ++ '/' :: v, n) := by
    apply splitAtLast_some_iff.mpr
    refine ⟨?_, nameOK_no_slash hn⟩
    rw [hs]
    simp
  have h2 : splitAtLast '/' (ns ++ '/' :: v) = some (ns, v) :=
    splitAtLast_some_iff.mpr ⟨rfl, versionOK_no_slash hv⟩
  simp [parseURI, h1, h2, hns, hv, hn]

/-- Soundness: whatever `parseURI` returns is a genuine `URI_REGEX` match. -/
theorem parseURI_sound {s ns v n : List Char}
    (h : parseURI s = some (ns, v, n)) : uriSplit s ns v n := by
  unfold parseURI at h
  split at h
  · exact absurd h (by simp)
  · rename_i pre nm h1
    split at h
    · exact absurd h (by simp)
    · rename_i ns0 ver h2
      split at h
      · rename_i hcond
        injection h with h
        simp only [Prod.mk.injEq] at h
        obtain ⟨ha, hb, hc⟩ := h
        subst ha; subst hb; subst hc
        simp only [Bool.and_eq_true] at hcond
        obtain ⟨⟨hns, hv⟩, hn⟩ := hcond
        obtain ⟨hspre, _⟩ := splitAtLast_some_iff.mp h2
        obtain ⟨hss, _⟩ := splitAtLast_some_iff.mp h1
        refine ⟨?_, hns, hv, hn⟩
        rw [hss, hspre]
        simp
      · exact absurd h (by simp)

/-- C1 (amended): for every triple whose namespace matches `https?://.+`, whose
version matches the source grammar `\d(?:\.\d+){0,2}` (first component a single
digit), and whose name is non-empty and free of `/`, `#`, `?`, parsing the
built canonical string `{namespace}/{version}/{name}` yields back exactly the
same namespace, version and name. -/
theorem C1_identity_roundtrip (ns v n : List Char)
    (hns : nsOK ns = true) (hv : versionOK v = true) (hn : nameOK n = true) :
    parseURI (buildIdentity ns v n) = some (ns, v, n) :=
  parseURI_complete ⟨rfl, hns, hv, hn⟩

theorem C1_identity_roundtrip_witness :
    nsOK "http://onto-ns.com/meta".data = true ∧
    versionOK "0.1".data = true ∧
    nameOK "Person".data = true ∧
    parseURI (buildIdentity "http://onto-ns.com/meta".data "0.1".data "Person".data)
      = some ("http://onto-ns.com/meta".data, "0.1".data, "Person".data) :=
  ⟨by decide, by decide, by decide,
    C1_identity_roundtrip _ _ _ (by decide) (by decide) (by decide)⟩

/-- C1 counterexample: the triple `("http://example.com/ns", "10", "Thing")` is
well-formed by the claim's wording (the version is one dot-separated
non-negative integer), yet the built string does not parse at all: the regex
restricts the first version component to a single digit, so the round-trip
fails. -/
theorem C1_counterexample :
    nsOK "http://example.com/ns".data = true ∧
    specVersionOK "10".data = true ∧
    nameOK "Thing".data = true ∧
    parseURI (buildIdentity "http://example.com/ns".data "10".data "Thing".data) = none := by
  decide

/-! ## Resolver, version-bump and containment properties (C4, C8, C9, C10) -/

theorem splitOnC_of_not_mem {c : Char} : ∀ {s : List Char}, c ∉ s → splitOnC c s = [s] := by
  intro s
  induction s with
  | nil => intro _; rfl
  | cons x xs ih =>
    intro h
    have hx : ¬x = c := fun hh => h (by simp [hh])
    have hxs : c ∉ xs := fun hh => h (List.mem_cons_of_mem _ hh)
    simp only [splitOnC, if_neg hx, ih hxs]

theorem splitOnC_append_cons {c : Char} :
    ∀ {x rest : List Char}, c ∉ x → splitOnC c (x ++ c :: rest) = x :: splitOnC c rest := by
  intro x
  induction x with
  | nil => intro rest _; simp [splitOnC]
  | cons y ys ih =>
    intro rest h
    have hy : ¬y = c := fun hh => h (by simp [hh])
    have hys : c ∉ ys := fun hh => h (List.mem_cons_of_mem _ hh)
    simp only [List.cons_append, splitOnC, if_neg hy, List.append_eq]
    rw [ih hys]

theorem dot_not_mem_of_digits {s : List Char} (h : s.all Char.isDigit = true) : '.' ∉ s :=
  fun hm => absurd (List.all_eq_true.mp h _ hm) (by decide)

/-- C9: for every entity whose current version is a dotted string of 1-3
numeric components, the suggested next version is: one component `X` gives
`X.1`; two components `X.Y` give `X.Y.1`; three components `X.Y.Z` give
`X.Y.(Z+1)` (the decimal numeral of the last component incremented by one). -/
theorem C9_version_bump (e : VersionedSOFTEntity) (x y z : List Char)
    (hx : (!x.isEmpty && x.all Char.isDigit) = true)
    (hy : (!y.isEmpty && y.all Char.isDigit) = true)
    (hz : (!z.isEmpty && z.all Char.isDigit) = true) :
    (get_version e = .ok (String.mk x) →
      get_updated_version e = .ok (String.mk x ++ ".1")) ∧
    (get_version e = .ok (String.mk (x ++ '.' :: y)) →
      get_updated_version e = .ok (String.mk x ++ "." ++ String.mk y ++ ".1")) ∧
    (get_version e = .ok (String.mk (x ++ '.' :: (y ++ '.' :: z))) →
      get_updated_version e = .ok
        (String.mk x ++ "." ++ String.mk y ++ "." ++ Nat.repr (digitsToNat z + 1))) := by
  have hxd : '.' ∉ x := dot_not_mem_of_digits (Bool.and_eq_true .. ▸ hx).2
  have hyd : '.' ∉ y := dot_not_mem_of_digits (Bool.and_eq_true .. ▸ hy).2
  have hzd : '.' ∉ z := dot_not_mem_of_digits (Bool.and_eq_true .. ▸ hz).2
  refine ⟨?_, ?_, ?_⟩
  · intro h
    have hsp : splitOnC '.' (String.mk x).data = [x] := splitOnC_of_not_mem hxd
    simp [get_updated_version, h, hsp, hx]
  · intro h
    have hsp : splitOnC '.' (String.mk (x ++ '.' :: y)).data = [x, y] := by
      show splitOnC '.' (x ++ '.' :: y) = [x, y]
      rw [splitOnC_append_cons hxd, splitOnC_of_not_mem hyd]
    simp [get_updated_version, h, hsp, hx, hy]
  · intro h
    have hsp : splitOnC '.' (String.mk (x ++ '.' :: (y ++ '.' :: z))).data = [x, y, z] := by
      show splitOnC '.' (x ++ '.' :: (y ++ '.' :: z)) = [x, y, z]
      rw [splitOnC_append_cons hxd, splitOnC_append_cons hyd, splitOnC_of_not_mem hzd]
    simp [get_updated_version, h, hsp, hx, hy, hz]

theorem C9_version_bump_witness :
    get_updated_version (sampleEntityWithVersion "1") = .ok "1.1" ∧
    get_updated_version (sampleEntityWithVersion "1.1") = .ok "1.1.1" ∧
    get_updated_version (sampleEntityWithVersion "1.1.1") = .ok "1.1.2" := by
  refine ⟨?_, ?_, ?_⟩
  · have h := (C9_version_bump (sampleEntityWithVersion "1") "1".data "1".data "1".data
      (by decide) (by decide) (by decide)).1 rfl
    simpa using h
  · have h := (C9_version_bump (sampleEntityWithVersion "1.1") "1".data "1".data "1".data
      (by decide) (by decide) (by decide)).2.1 rfl
    simpa using h
  · have h := (C9_version_bump (sampleEntityWithVersion "1.1.1") "1".data "1".data "1".data
      (by decide) (by decide) (by decide)).2.2 rfl
    simpa using h

/-- C4: whenever the variant-B model (`SOFT7Entity`) validates a raw payload,
`soft_entity` returns that variant-B result — variant B is attempted first and
its success is returned, so in particular a payload valid under both variants
resolves to variant B and never to variant A.  (This is the stronger priority
statement; with the real models no payload validates under both variants, since
a `properties` value cannot be both a list and a mapping.) -/
theorem C4_variant_priority (baseUrl : String) (raw : RawEntity) (e : SOFT7Entity)
    (h : validateSOFT7 baseUrl raw = .ok e) :
    soft_entity baseUrl raw = .ok (.soft7 e) := by
  unfold soft_entity
  rw [h]

theorem C4_variant_priority_witness :
    validateSOFT7 "http://onto-ns.com" rawPersonSOFT7 = .ok personSOFT7 ∧
    soft_entity "http://onto-ns.com" rawPersonSOFT7 = .ok (.soft7 personSOFT7) :=
  ⟨rfl, C4_variant_priority _ _ _ rfl⟩

/-- C8 counterexample: on `{name: "Person"}` both variants fail with the
identical cross-field error, and the resolver returns that sub-error twice —
the aggregated result is not deduplicated, contradicting the claim. -/
theorem C8_counterexample :
    soft_entity "http://onto-ns.com" rawNameOnly = .error [[msgAllOrNone], [msgAllOrNone]] ∧
    ¬ ([[msgAllOrNone], [msgAllOrNone]] : List (List String)).flatten.Nodup := by
  constructor
  · rfl
  · decide

/-- C8 (amended): for every raw attribute map that fails validation under both
schema variants, the resolver returns the validation errors of both attempts
concatenated in attempt order (variant B followed by variant A), with every
sub-error from both attempts propagated and no deduplication applied — never
only the first attempt's errors. -/
theorem C8_error_aggregation (baseUrl : String) (raw : RawEntity)
    (e7 e5 : List String)
    (h7 : validateSOFT7 baseUrl raw = .error e7)
    (h5 : validateSOFT5 raw = .error e5) :
    soft_entity baseUrl raw = .error [e7, e5] := by
  unfold soft_entity
  rw [h7, h5]

theorem C8_error_aggregation_witness :
    validateSOFT7 "http://onto-ns.com" rawNameOnly = .error [msgAllOrNone] ∧
    validateSOFT5 rawNameOnly = .error [msgAllOrNone] ∧
    soft_entity "http://onto-ns.com" rawNameOnly = .error [[msgAllOrNone], [msgAllOrNone]] :=
  ⟨rfl, rfl, C8_error_aggregation _ _ _ _ rfl rfl⟩

/-- C10: for every base URL, every abstract `read` and every dict argument that
fails entity validation under all schema variants, the containment test returns
`False` without querying the store (no identity is passed to `read`); an
argument that is neither a dict, an identity string, nor an entity model also
returns `False` without querying the store. -/
theorem C10_contains_malformed (baseUrl : String) (readFn : String → Option Unit)
    (raw : RawEntity) (errs : List (List String))
    (h : soft_entity baseUrl raw = .error errs) :
    backendContains baseUrl readFn (.dict raw) = (false, []) ∧
    backendContains baseUrl readFn .other = (false, []) := by
  constructor
  · simp only [backendContains]
    rw [h]
  · rfl

theorem C10_contains_malformed_witness :
    soft_entity "http://onto-ns.com" rawNameOnly = .error [[msgAllOrNone], [msgAllOrNone]] ∧
    backendContains "http://onto-ns.com" (fun _ => some ()) (.dict rawNameOnly) = (false, []) ∧
    backendContains "http://onto-ns.com" (fun _ => some ()) .other = (false, []) :=
  ⟨rfl,
    (C10_contains_malformed "http://onto-ns.com" (fun _ => some ()) rawNameOnly
      [[msgAllOrNone], [msgAllOrNone]] rfl).1,
    (C10_contains_malformed "http://onto-ns.com" (fun _ => some ()) rawNameOnly
      [[msgAllOrNone], [msgAllOrNone]] rfl).2⟩

/-! ## Backend properties (C2, C3, C5, C7) -/

theorem insert_many_singleton (c : MongoCollection) (x : MongoDoc) :
    MongoDBBackend.insert_many c [x] =
      if MongoDBBackend.uniqueIdentityEnforced c
          && c.docs.any (fun d0 => decide (lookupField "identity" d0 = lookupField "identity" x)) then
        (c, .error (.bulkWrite [⟨some 11000⟩]))
      else ({ c with docs := c.docs ++ [x] }, .ok ()) := by
  by_cases h : (MongoDBBackend.uniqueIdentityEnforced c
      && c.docs.any (fun d0 => decide (lookupField "identity" d0 = lookupField "identity" x))) = true
  · simp [MongoDBBackend.insert_many, h]
  · simp only [Bool.not_eq_true] at h
    simp [MongoDBBackend.insert_many, h]

theorem create_error_of_insert_error (c : MongoCollection) (es : List MongoDoc)
    (c1 : MongoCollection) (e : PyMongoErr)
    (hins : MongoDBBackend.insert_many c es = (c1, .error e)) :
    ∃ err, MongoDBBackend.create c es = (c1, .error err) := by
  unfold MongoDBBackend.create
  rw [hins]
  cases hcl : MongoDBBackend.classifyCreateFailure e with
  | propagate pe => exact ⟨.backendFailure pe, by simp [hcl]⟩
  | entityExists =>
    cases hi : MongoDBBackend.identitiesOf es with
    | error m => exact ⟨.invalidEntity m, by simp [hcl, hi]⟩
    | ok ids =>
      cases hs : MongoDBBackend.search_by_identities c1 ids with
      | error m => exact ⟨.invalidEntity m, by simp [hcl, hi, hs]⟩
      | ok ex =>
        cases he : MongoDBBackend.identitiesOf ex with
        | error m => exact ⟨.invalidEntity m, by simp [hcl, hi, hs, he]⟩
        | ok exIds => exact ⟨.entityExists exIds, by simp [hcl, hi, hs, he]⟩

/-- C2: in a freshly initialized collection (unique IDENTITY index present),
after `create([x])` succeeds, a second `create([x])` fails with the
EntityExists error naming exactly `x`'s identity, and leaves the collection —
in particular its document count — unchanged. -/
theorem C2_create_uniqueness (docs : List MongoDoc) (x : MongoDoc) (xid : String)
    (c' : MongoCollection) (r : List MongoDoc)
    (hid : MongoDBBackend.get_identity x = .ok xid)
    (hfield : lookupField "identity" x = some (.s xid))
    (hvalid : MongoDBBackend.soft7IdentityOK xid = true)
    (h1 : MongoDBBackend.create (MongoDBBackend.initializeCollection ⟨docs, none⟩) [x]
            = (c', .ok r)) :
    MongoDBBackend.create c' [x] = (c', .error (.entityExists [xid])) ∧
    (MongoDBBackend.create c' [x]).1.docs.length = c'.docs.length := by
  have hc0 : MongoDBBackend.initializeCollection ⟨docs, none⟩
      = ⟨docs, some ⟨[("identity", 1)], true⟩⟩ := rfl
  rw [hc0] at h1
  have hins := insert_many_singleton ⟨docs, some ⟨[("identity", 1)], true⟩⟩ x
  have henf : MongoDBBackend.uniqueIdentityEnforced ⟨docs, some ⟨[("identity", 1)], true⟩⟩
      = true := rfl
  by_cases hdup :
      (docs.any (fun d0 => decide (lookupField "identity" d0 = lookupField "identity" x))) = true
  · exfalso
    rw [henf] at hins
    simp only [hdup, Bool.and_self, if_true] at hins
    obtain ⟨err, herr⟩ := create_error_of_insert_error _ _ _ _ hins
    rw [herr] at h1
    simp at h1
  · simp only [Bool.not_eq_true] at hdup
    rw [henf, hdup] at hins
    simp only [Bool.and_false, Bool.false_eq_true, if_false] at hins
    have hcr : MongoDBBackend.create ⟨docs, some ⟨[("identity", 1)], true⟩⟩ [x]
        = (⟨docs ++ [x], some ⟨[("identity", 1)], true⟩⟩, .ok [x]) := by
      unfold MongoDBBackend.create
      rw [hins]
    rw [hcr] at h1
    simp only [Prod.mk.injEq, Except.ok.injEq] at h1
    obtain ⟨hc', hr⟩ := h1
    subst hc'
    have henf1 : MongoDBBackend.uniqueIdentityEnforced
        ⟨docs ++ [x], some ⟨[("identity", 1)], true⟩⟩ = true := rfl
    have hany : (docs ++ [x]).any
        (fun d0 => decide (lookupField "identity" d0 = lookupField "identity" x)) = true := by
      simp
    have hins2 : MongoDBBackend.insert_many ⟨docs ++ [x], some ⟨[("identity", 1)], true⟩⟩ [x]
        = (⟨docs ++ [x], some ⟨[("identity", 1)], true⟩⟩, .error (.bulkWrite [⟨some 11000⟩])) := by
      rw [insert_many_singleton, henf1]
      simp only [hany, Bool.and_self, if_true]
    have hids : MongoDBBackend.identitiesOf [x] = .ok [xid] := by
      simp [MongoDBBackend.identitiesOf, hid]
    have hfilter : (docs ++ [x]).filter
        (fun d => [xid].any (fun i => decide (lookupField "identity" d = some (.s i)))) = [x] := by
      rw [List.filter_append]
      have h2 : docs.filter
          (fun d => [xid].any (fun i => decide (lookupField "identity" d = some (.s i)))) = [] := by
        rw [List.filter_eq_nil_iff]
        intro d hd
        have hfd := List.any_eq_false.mp hdup d hd
        rw [hfield] at hfd
        simp only [List.any_cons, List.any_nil, Bool.or_false]
        simpa using hfd
      have h3 : List.filter
          (fun d => [xid].any (fun i => decide (lookupField "identity" d = some (.s i)))) [x]
          = [x] := by
        simp [hfield]
      rw [h2, h3]
      simp
    have hsearch : MongoDBBackend.search_by_identities
        ⟨docs ++ [x], some ⟨[("identity", 1)], true⟩⟩ [xid] = .ok [x] := by
      unfold MongoDBBackend.search_by_identities
      rw [if_pos (by simp [hvalid])]
      rw [Except.ok.injEq]
      exact hfilter
    have hfinal : MongoDBBackend.create ⟨docs ++ [x], some ⟨[("identity", 1)], true⟩⟩ [x]
        = (⟨docs ++ [x], some ⟨[("identity", 1)], true⟩⟩, .error (.entityExists [xid])) := by
      unfold MongoDBBackend.create
      rw [hins2]
      simp [MongoDBBackend.classifyCreateFailure, hids, hsearch]
    exact ⟨hfinal, by rw [hfinal]⟩

theorem C2_create_uniqueness_witness :
    MongoDBBackend.get_identity docB = .ok "http://onto-ns.com/0.1/A" ∧
    MongoDBBackend.create (MongoDBBackend.initializeCollection ⟨[], none⟩) [docB]
      = (⟨[docB], some ⟨[("identity", 1)], true⟩⟩, .ok [docB]) ∧
    MongoDBBackend.create ⟨[docB], some ⟨[("identity", 1)], true⟩⟩ [docB]
      = (⟨[docB], some ⟨[("identity", 1)], true⟩⟩,
          .error (.entityExists ["http://onto-ns.com/0.1/A"])) :=
  ⟨rfl, rfl,
    (C2_create_uniqueness [] docB "http://onto-ns.com/0.1/A"
      ⟨[docB], some ⟨[("identity", 1)], true⟩⟩ [docB] rfl rfl rfl rfl).1⟩

/-- C3: `create` maps an insert failure to the EntityExists outcome exactly
when the failure is a duplicate-key failure (a `DuplicateKeyError`, or a
`BulkWriteError` whose write-error details contain the duplicate-key code
11000); every other write failure propagates unchanged, never as
EntityExists. -/
theorem C3_write_failure_classification (e : PyMongoErr) :
    (MongoDBBackend.classifyCreateFailure e = .entityExists ↔ isDuplicateKeyFailure e) ∧
    (MongoDBBackend.classifyCreateFailure e = .entityExists ∨
      MongoDBBackend.classifyCreateFailure e = .propagate e) := by
  cases e with
  | duplicateKey => exact ⟨⟨fun _ => Or.inl rfl, fun _ => rfl⟩, Or.inl rfl⟩
  | bulkWrite ws =>
    by_cases hws : ws.any (fun w => decide (w.code = some 11000)) = true
    · exact ⟨⟨fun _ => Or.inr ⟨ws, rfl, hws⟩,
        fun _ => by simp [MongoDBBackend.classifyCreateFailure, hws]⟩,
        Or.inl (by simp [MongoDBBackend.classifyCreateFailure, hws])⟩
    · refine ⟨⟨fun h => ?_, fun h => ?_⟩,
        Or.inr (by simp [MongoDBBackend.classifyCreateFailure, hws])⟩
      · simp [MongoDBBackend.classifyCreateFailure, hws] at h
      · rcases h with h | ⟨ws', hws', hany⟩
        · simp at h
        · have hww : ws = ws' := PyMongoErr.bulkWrite.inj hws'
          rw [hww] at hws
          exact absurd hany hws
  | writeConcern =>
    exact ⟨⟨fun h => by simp [MongoDBBackend.classifyCreateFailure] at h,
      fun h => by rcases h with h | ⟨ws, h, _⟩ <;> simp at h⟩, Or.inr rfl⟩
  | writeErr =>
    exact ⟨⟨fun h => by simp [MongoDBBackend.classifyCreateFailure] at h,
      fun h => by rcases h with h | ⟨ws, h, _⟩ <;> simp at h⟩, Or.inr rfl⟩
  | operationFailure =>
    exact ⟨⟨fun h => by simp [MongoDBBackend.classifyCreateFailure] at h,
      fun h => by rcases h with h | ⟨ws, h, _⟩ <;> simp at h⟩, Or.inr rfl⟩
  | invalidDocument =>
    exact ⟨⟨fun h => by simp [MongoDBBackend.classifyCreateFailure] at h,
      fun h => by rcases h with h | ⟨ws, h, _⟩ <;> simp at h⟩, Or.inr rfl⟩
  | otherFailure =>
    exact ⟨⟨fun h => by simp [MongoDBBackend.classifyCreateFailure] at h,
      fun h => by rcases h with h | ⟨ws, h, _⟩ <;> simp at h⟩, Or.inr rfl⟩

theorem setFirstMatch_no_match {pred : MongoDoc → Bool} {patch : MongoDoc} :
    ∀ {l : List MongoDoc}, (∀ d ∈ l, pred d = false) →
      MongoDBBackend.setFirstMatch pred patch l = l := by
  intro l
  induction l with
  | nil => intro _; rfl
  | cons d ds ih =>
    intro h
    have hd : pred d = false := h d (by simp)
    simp only [MongoDBBackend.setFirstMatch, hd, Bool.false_eq_true, if_false]
    rw [ih (fun d' hd' => h d' (List.mem_cons_of_mem _ hd'))]

theorem lookup_map_set {k : String} {patch : MongoDoc} {v : BVal} :
    ∀ {old : MongoDoc}, lookupField k patch = none → lookupField k old = some v →
      lookupField k (old.map (fun kv =>
        match lookupField kv.1 patch with
        | some w => (kv.1, w)
        | none => kv)) = some v := by
  intro old
  induction old with
  | nil => intro _ h; simp [lookupField] at h
  | cons kv old' ih =>
    intro hp ho
    obtain ⟨k0, v0⟩ := kv
    by_cases hk : k0 = k
    · subst hk
      rw [lookupField, if_pos rfl] at ho
      injection ho with ho
      subst ho
      simp only [List.map_cons, hp]
      rw [lookupField, if_pos rfl]
    · rw [lookupField, if_neg hk] at ho
      simp only [List.map_cons]
      cases hpk : lookupField k0 patch with
      | none =>
        rw [lookupField, if_neg hk]
        exact ih hp ho
      | some w =>
        rw [lookupField, if_neg hk]
        exact ih hp ho

theorem lookupField_append_left {k : String} {v : BVal} {A B : MongoDoc}
    (h : lookupField k A = some v) : lookupField k (A ++ B) = some v := by
  induction A with
  | nil => simp [lookupField] at h
  | cons kv A' ih =>
    obtain ⟨k0, v0⟩ := kv
    by_cases hk : k0 = k
    · rw [lookupField, if_pos hk] at h
      rw [List.cons_append, lookupField, if_pos hk]
      exact h
    · rw [lookupField, if_neg hk] at h
      rw [List.cons_append, lookupField, if_neg hk]
      exact ih h

theorem lookup_mergeSet_of_none {k : String} {v : BVal} {old patch : MongoDoc}
    (hp : lookupField k patch = none) (ho : lookupField k old = some v) :
    lookupField k (MongoDBBackend.mergeSet old patch) = some v := by
  unfold MongoDBBackend.mergeSet
  exact lookupField_append_left (lookup_map_set hp ho)

/-- C5 (amended): `update` first validates the identity against the grammar;
for a grammar-valid identity it never errors: when no stored document carries
that identity the collection is returned unchanged (silent no-op), and a
matching stored document is replaced by the MongoDB `$set` merge of itself
with the new entity — so a field of the previously stored document survives
whenever the new entity does not name it. -/
theorem C5_update_set_merge (c : MongoCollection) (ident : String) (ent : MongoDoc)
    (hvalid : MongoDBBackend.soft7IdentityOK ident = true) :
    (MongoDBBackend.update c ident ent).2 = .ok () ∧
    ((∀ d ∈ c.docs, lookupField "identity" d ≠ some (.s ident)) →
      MongoDBBackend.update c ident ent = (c, .ok ())) ∧
    (∀ d k v, lookupField k ent = none → lookupField k d = some v →
      lookupField k (MongoDBBackend.mergeSet d ent) = some v) := by
  refine ⟨?_, ?_, ?_⟩
  · simp [MongoDBBackend.update, hvalid]
  · intro hno
    have hsf : MongoDBBackend.setFirstMatch
        (fun d => decide (lookupField "identity" d = some (.s ident))) ent c.docs = c.docs :=
      setFirstMatch_no_match (fun d hd => by simp [hno d hd])
    simp [MongoDBBackend.update, hvalid, hsf]
  · intro d k v hp ho
    exact lookup_mergeSet_of_none hp ho

/-- C5 counterexample: updating the stored `docA` with `patchA` (which carries
no `unit` field) keeps the old `unit` value in the stored document — `update`
is a `$set` field-wise merge, not a full replace, so a field of the previously
stored document survives although absent from the new entity. -/
theorem C5_counterexample :
    lookupField "unit" patchA = none ∧
    (MongoDBBackend.update ⟨[docA], some ⟨[("identity", 1)], true⟩⟩
        "http://onto-ns.com/0.1/A" patchA).2 = .ok () ∧
    lookupField "unit"
      ((MongoDBBackend.update ⟨[docA], some ⟨[("identity", 1)], true⟩⟩
        "http://onto-ns.com/0.1/A" patchA).1.docs.headD []) = some (.s "m") :=
  ⟨rfl, rfl, rfl⟩

theorem C5_update_set_merge_witness :
    MongoDBBackend.soft7IdentityOK "http://onto-ns.com/0.1/A" = true ∧
    MongoDBBackend.update ⟨[], some ⟨[("identity", 1)], true⟩⟩ "http://onto-ns.com/0.1/A" patchA
      = (⟨[], some ⟨[("identity", 1)], true⟩⟩, .ok ()) ∧
    lookupField "unit" (MongoDBBackend.mergeSet docA patchA) = some (.s "m") :=
  ⟨rfl,
    (C5_update_set_merge ⟨[], some ⟨[("identity", 1)], true⟩⟩
      "http://onto-ns.com/0.1/A" patchA rfl).2.1 (fun d hd => by simp at hd),
    (C5_update_set_merge ⟨[], some ⟨[("identity", 1)], true⟩⟩
      "http://onto-ns.com/0.1/A" patchA rfl).2.2 docA "unit" (.s "m") rfl rfl⟩

/-- C7: `delete` validates every given identity against the grammar before
touching the store: if any identity fails the grammar, it fails with the
invalid-identity error and the collection is exactly as it was (no deletion is
attempted); only when every identity is well-formed are the matching documents
removed. -/
theorem C7_delete_validation (c : MongoCollection) (ids : List String) :
    (¬ ids.all MongoDBBackend.soft7IdentityOK = true →
      MongoDBBackend.delete c ids = (c, .error (.invalidEntity "Invalid entity identity"))) ∧
    (ids.all MongoDBBackend.soft7IdentityOK = true →
      MongoDBBackend.delete c ids =
        ({ c with docs := c.docs.filter (fun d =>
            !(ids.any (fun i => decide (lookupField "identity" d = some (.s i))))) },
          .ok ())) := by
  constructor
  · intro h
    simp only [MongoDBBackend.delete, if_neg h]
  · intro h
    simp only [MongoDBBackend.delete, if_pos h]

theorem C7_delete_validation_witness :
    MongoDBBackend.soft7IdentityOK "not a uri" = false ∧
    MongoDBBackend.delete ⟨[docA], some ⟨[("identity", 1)], true⟩⟩ ["not a uri"]
      = (⟨[docA], some ⟨[("identity", 1)], true⟩⟩,
          .error (.invalidEntity "Invalid entity identity")) :=
  ⟨rfl, (C7_delete_validation ⟨[docA], some ⟨[("identity", 1)], true⟩⟩ ["not a uri"]).1
    (by decide)⟩

/-! ## Upload driver properties (C6) -/

theorem uploadLoop_false_spec (files : List (String × StepResult)) :
    uploadLoop false files =
      .ok (files.filterMap stepOk, (files.filter isSkipStep).map Prod.fst,
        (files.filter isFailStep).map Prod.fst) := by
  induction files with
  | nil => rfl
  | cons pr rest ih =>
    obtain ⟨p, r⟩ := pr
    cases r with
    | ok e => simp [uploadLoop, ih, stepOk, isSkipStep, isFailStep, Except.map]
    | skip => simp [uploadLoop, ih, stepOk, isSkipStep, isFailStep, Except.map]
    | fail => simp [uploadLoop, ih, stepOk, isSkipStep, isFailStep, Except.map]

/-- C6 counterexample: without fail-fast, a run over a failed file `a.json`
and a validated file `b.json` makes no batch create call at all (`b.json` is
not submitted), exits with code 1, and the final report lists only the failed
file — contradicting the claim that every validated non-failed candidate is
still submitted. -/
theorem C6_counterexample :
    upload false [("a.json", .fail), ("b.json", .ok docB)]
      = .ok { batchCall := none, exitCode := 1, succeededListed := [],
              skippedListed := [], failedListed := ["a.json"] } := rfl

/-- C6 (amended): in an upload run without fail-fast the loop continues past
individual failures, but when at least one candidate ends as failed the run
reports the failed files and exits with code 1 before any batch create call —
no validated candidate is submitted; only when no candidate failed are all
validated, non-skipped candidates submitted together in one batch create
call, with a summary listing succeeded and skipped files. -/
theorem C6_upload_batching (files : List (String × StepResult)) :
    (files.filter isFailStep ≠ [] →
      upload false files = .ok
        { batchCall := none
          exitCode := 1
          succeededListed := []
          skippedListed := []
          failedListed := (files.filter isFailStep).map Prod.fst }) ∧
    (files.filter isFailStep = [] →
      upload false files = .ok
        { batchCall :=
            if (files.filterMap stepOk).isEmpty then none
            else some ((files.filterMap stepOk).map Prod.snd)
          exitCode := 0
          succeededListed := (files.filterMap stepOk).map Prod.fst
          skippedListed := (files.filter isSkipStep).map Prod.fst
          failedListed := [] }) := by
  have hspec := uploadLoop_false_spec files
  constructor
  · intro h
    have hne : (files.filter isFailStep).map Prod.fst ≠ [] := by
      simpa using h
    simp [upload, hspec, uploadEpilogue, Except.map, hne]
  · intro h
    simp [upload, hspec, uploadEpilogue, Except.map, h]

theorem C6_upload_batching_witness :
    upload false [("a.json", StepResult.fail), ("b.json", .ok docB), ("c.json", .skip)]
      = .ok { batchCall := none, exitCode := 1, succeededListed := [],
              skippedListed := [], failedListed := ["a.json"] } ∧
    upload false [("b.json", StepResult.ok docB), ("c.json", .skip)]
      = .ok { batchCall := some [docB], exitCode := 0, succeededListed := ["b.json"],
              skippedListed := ["c.json"], failedListed := [] } := by
  constructor
  · have h := (C6_upload_batching
      [("a.json", StepResult.fail), ("b.json", .ok docB), ("c.json", .skip)]).1 (by decide)
    simpa using h
  · have h := (C6_upload_batching
      [("b.json", StepResult.ok docB), ("c.json", .skip)]).2 (by decide)
    simpa using h
